import Mathlib

/-!
# ThermalDAQ acquisition core, shallowly embedded

Lean models of the data-collection layer of the ThermalDAQ repository
(`src/utils/data.py`, `src/devices/TCM.py`, `src/devices/FluxDAQ.py`,
`src/devices/SMTC.py`) together with theorems settling the spec's claims
about them.

Modelling conventions:
* Python floats become `ℚ`; a possibly-NaN float becomes `Val := Option ℚ`
  with `none` standing for NaN.
* `None`-or-value fields become `Option`; code that can raise becomes
  `Except String` (the message text is abbreviated, only the raised/normal
  distinction matters).
* Python's `float(...)` string parser is left abstract: the models take a
  parameter `toFloat? : String → Option ℚ` where `none` means `float()`
  raises `ValueError`; no claim depends on which numerals parse.
* Serial/subprocess I/O is represented by the response strings the device
  hands back, which the models take as arguments.
-/

namespace ThermalDAQ

/-- A floating-point value: `none` models NaN, `some x` a finite value. -/
abbrev Val := Option ℚ

/-! ## `src/utils/data.py`: queues, `dequeue_data`, `DataCollector` -/

/-- A queue entry as built by `enqueue_data` (`data.py:14-19`):
the timestamp consed onto the sample vector, here kept as a pair. -/
structure Entry where
  ts : ℚ
  data : List Val
deriving DecidableEq

/-- The drain loop of `dequeue_data` (`data.py:27-32`): pop entries from the
front of the queue while the head's timestamp is `< t`, stop at the first
entry at or past `t`.  Returns (drained entries, remaining queue). -/
def dequeueLoop (q : List Entry) (t : ℚ) : List Entry × List Entry :=
  match q with
  | [] => ([], [])
  | e :: rest =>
    if e.ts < t then
      let r := dequeueLoop rest t
      (e :: r.1, r.2)
    else
      ([], e :: rest)

/-- The non-NaN values appearing in column `j` of a list of rows. -/
def colVals (rows : List (List Val)) (j : ℕ) : List ℚ :=
  rows.filterMap (fun r => (r.getD j none))

/-- Model of `np.nanmean(rows, axis=0)` on a rectangular list of rows of
width `n`: the column-wise arithmetic mean with NaN entries excluded from
each column's mean; a column that is NaN in every row yields NaN. -/
def nanmean (rows : List (List Val)) (n : ℕ) : List Val :=
  (List.range n).map (fun j =>
    let vs := colVals rows j
    if vs.isEmpty then none else some (vs.sum / vs.length))

/-- `dequeue_data` (`data.py:21-38`): drain every entry strictly before `t`;
if any were drained return `np.nanmean` of their sample vectors, else the
Python `None` ("no data").  Also returns the queue left behind. -/
def dequeue_data (q : List Entry) (t : ℚ) : Option (List Val) × List Entry :=
  let d := dequeueLoop q t
  match d.1 with
  | [] => (none, d.2)
  | r :: _ => (some (nanmean (d.1.map Entry.data) r.data.length), d.2)

/-- Insert a key/value pair into an association list with Python `dict`
assignment semantics: replace in place when the key is present, else append. -/
def dictInsert (d : List (String × Option Val)) (k : String) (v : Option Val) :
    List (String × Option Val) :=
  if d.any (fun p => p.1 == k) then
    d.map (fun p => if p.1 == k then (k, v) else p)
  else
    d ++ [(k, v)]

/-- The dict comprehension at `data.py:100`: every header name maps to
Python `None` (duplicate names collapse as in a `dict`). -/
def dictOfKeys (ks : List String) : List (String × Option Val) :=
  ks.foldl (fun d k => dictInsert d k none) []

/-- The mutable state of a `DataCollector` (`data.py:77-100`), with the
per-device queues inlined so collection is a pure state transformer.
Cells of the merged views are `Option Val`: `none` is the initial Python
`None`, `some v` a written value (itself possibly NaN). -/
structure Collector where
  headers : List (List String)
  queues : List (List Entry)
  latest_queue_data : List (Option (List Val))
  latest_array_data : List (Option Val)
  latest_dict_data : List (String × Option Val)
deriving DecidableEq

/-- The offsets computed at `data.py:97`:
`[0] + [len(header) for header in headers[:-1]]` (as written there). -/
def array_start_idx (headers : List (List String)) : List ℕ :=
  0 :: headers.dropLast.map List.length

/-- `DataCollector.__init__` (`data.py:86-100`) with persistence disabled:
all caches start at the unknown marker. -/
def mkCollector (queues : List (List Entry)) (headers : List (List String)) :
    Collector :=
  let header_row := headers.flatten
  { headers := headers
    queues := queues
    latest_queue_data := List.replicate queues.length none
    latest_array_data := List.replicate header_row.length none
    latest_dict_data := dictOfKeys header_row }

/-- Python slice assignment `a[start:start+len(data)] = data` for slices
that stay inside the list. -/
def setSlice {α : Type} (a : List α) (start : ℕ) (data : List α) : List α :=
  a.take start ++ data ++ a.drop (start + data.length)

/-- `update_queue_data` (`data.py:152-153`). -/
def update_queue_data (c : Collector) (i : ℕ) (data : List Val) : Collector :=
  { c with latest_queue_data := c.latest_queue_data.set i (some data) }

/-- `update_array_data` (`data.py:155-158`): splice the device's vector into
the flat row at its `array_start_idx` offset. -/
def update_array_data (c : Collector) (i : ℕ) (data : List Val) : Collector :=
  let start := (array_start_idx c.headers).getD i 0
  { c with latest_array_data := setSlice c.latest_array_data start (data.map some) }

/-- `update_dict_data` (`data.py:160-163`): `dict.update(zip(header_i, data))`. -/
def update_dict_data (c : Collector) (i : ℕ) (data : List Val) : Collector :=
  let kvs := (c.headers.getD i []).zip data
  { c with latest_dict_data := kvs.foldl (fun d kv => dictInsert d kv.1 (some kv.2)) c.latest_dict_data }

/-- `update_data` (`data.py:165-168`). -/
def update_data (c : Collector) (i : ℕ) (data : List Val) : Collector :=
  update_dict_data (update_array_data (update_queue_data c i data) i data) i data

/-- One iteration of the loop in `collect_data` (`data.py:183-190`): drain
queue `i` up to `t`; on fresh data update all three views, otherwise leave
every view untouched (the code only reads `latest_queue_data[i]` back). -/
def collectStep (t : ℚ) (c : Collector) (i : ℕ) : Collector :=
  let r := dequeue_data (c.queues.getD i []) t
  let c' := { c with queues := c.queues.set i r.2 }
  match r.1 with
  | none => c'
  | some d => update_data c' i d

/-- `collect_data` (`data.py:176-193`) for one window boundary `t`, without
the wall-clock wait and the persistence write. -/
def collect_data (c : Collector) (t : ℚ) : Collector :=
  (List.range c.queues.length).foldl (collectStep t) c

/-- A three-device configuration exercising the collector: device headers
of lengths 2, 1, 1.  Used as a concrete input to the theorems below. -/
def demoHeaders : List (List String) := [["a", "b"], ["c"], ["d"]]

/-- One collected window on `demoHeaders` where every device produced one
sample before the boundary. -/
def demoC1 : Collector :=
  collect_data (mkCollector
    [[⟨1/2, [some 10, some 20]⟩], [⟨1/2, [some 30]⟩], [⟨1/2, [some 40]⟩]]
    demoHeaders) 1

/-- Two collected windows on `demoHeaders` where only device 3 produces a
sample in the second window. -/
def demoC6 : Collector :=
  collect_data (collect_data (mkCollector
    [[⟨1/2, [some 10, some 20]⟩], [⟨1/2, [some 30]⟩],
      [⟨1/2, [some 40]⟩, ⟨3/2, [some 50]⟩]]
    demoHeaders) 1) 2

/-! ## `src/devices/TCM.py`: the multi-drop bus driver

Wire strings are modelled by their character lists (`String.data`), with
Python `str.split` on a one-character separator written as a structural
recursion, so that every protocol function evaluates on closed inputs. -/

/-- Python `s.split(sep)` for a one-character separator: splits on every
occurrence, keeping empty pieces (`"".split(sep) == [""]`). -/
def splitChar (sep : Char) : List Char → List (List Char)
  | [] => [[]]
  | c :: cs =>
    if c = sep then [] :: splitChar sep cs
    else
      match splitChar sep cs with
      | [] => [[c]]
      | p :: ps => (c :: p) :: ps

/-- The numeric value of a decimal digit character, `none` otherwise. -/
def digitVal (c : Char) : Option ℕ :=
  if c.isDigit then some (c.toNat - '0'.toNat) else none

/-- Python `int()` on an unsigned decimal string: every character a digit
and at least one of them. -/
def charsToNat? (cs : List Char) : Option ℕ :=
  if cs.isEmpty then none
  else
    cs.foldl (fun acc c =>
      match acc, digitVal c with
      | some n, some d => some (10 * n + d)
      | _, _ => none) (some 0)

/-- Python `int()` on a decimal string with an optional sign. -/
def charsToInt? : List Char → Option ℤ
  | '-' :: cs => (charsToNat? cs).map (fun n => -(n : ℤ))
  | '+' :: cs => (charsToNat? cs).map (fun n => (n : ℤ))
  | cs => (charsToNat? cs).map (fun n => (n : ℤ))

/-- A list-valued analogue of the Python `for`-loop building a list while
any iteration may raise: stop at the first error. -/
def mapE {α β : Type} (f : α → Except String β) : List α → Except String (List β)
  | [] => .ok []
  | a :: as => do
    let b ← f a
    let bs ← mapE f as
    .ok (b :: bs)

/-- `extract_error_code` (`TCM.py:21-25`): on a line starting with `"CMD:"`,
the single digit right after the first `'='` (`int(s.split('=')[1][0])`);
on any other line the function falls through and returns Python `None`.
`.error` models the `IndexError`/`ValueError` the indexing or `int()` can
raise on a malformed `"CMD:"` line. -/
def extract_error_code (s : List Char) : Except String (Option ℤ) :=
  if s.take 4 = "CMD:".data then
    match splitChar '=' s with
    | _ :: v :: _ =>
      match v with
      | c :: _ =>
        match digitVal c with
        | some d => .ok (some (d : ℤ))
        | none => .error "invalid literal for int"
      | [] => .error "string index out of range"
    | _ => .error "list index out of range"
  else .ok none

/-- Outcome of a write-path response check. -/
inductive WriteResult where
  /-- The check fell through without raising. -/
  | passed
  /-- The `AttributeError` raised for a bad error code, carrying the
  attribute, address and code the message interpolates. -/
  | errorCode (attr : List Char) (addr : ℤ) (code : Option ℤ)
  /-- A Python exception escaping from `extract_error_code` itself. -/
  | exn
deriving DecidableEq

/-- The response check of `TCM.write_cmd` (`TCM.py:205-216`), applied to the
readout after the single command: as written the guard is
`if err_code != 1 or err_code != 8: raise AttributeError(...)`. -/
def write_cmd (attr : List Char) (addr : ℤ) (readout : List Char) : WriteResult :=
  match extract_error_code readout with
  | .error _ => .exn
  | .ok code =>
    if code ≠ some 1 ∨ code ≠ some 8 then .errorCode attr addr code
    else .passed

/-- The response loop of `TCM.write_cmds` (`TCM.py:227-233`): check each
framed line (`readout.split('\r')[:-1]`); raise on any code other than 1
or 8.  The message interpolates the loop variables `attr`/`addr` left over
from the command loop, i.e. the last written slot. -/
def write_cmds_lines (lastAttr : List Char) (lastAddr : ℤ) :
    List (List Char) → WriteResult
  | [] => .passed
  | l :: rest =>
    match extract_error_code l with
    | .error _ => .exn
    | .ok code =>
      if code ≠ some 1 ∧ code ≠ some 8 then .errorCode lastAttr lastAddr code
      else write_cmds_lines lastAttr lastAddr rest

/-- `TCM.write_cmds` (`TCM.py:219-233`): transmit all commands, then check
the batched readout line by line. -/
def write_cmds (attributes : List (List Char)) (addresses : List ℤ)
    (readout : List Char) : WriteResult :=
  write_cmds_lines (attributes.getLastD []) (addresses.getLastD 0)
    ((splitChar '\r' readout).dropLast)

/-- The key loop of `TCM.__init__` (`TCM.py:71-76`): reject a key without
`'@'`, and append a key to the header only when it is not already in
`headermap` (duplicates are skipped). -/
def buildHeaderAux (acc : List (List Char)) :
    List (List Char) → Except String (List (List Char))
  | [] => .ok acc
  | k :: rest =>
    if ¬ k.contains '@' then .error "Key must be a string with at-sign in it"
    else if acc.contains k then buildHeaderAux acc rest
    else buildHeaderAux (acc ++ [k]) rest

/-- The slot split of `TCM.__init__` (`TCM.py:82-87`): `k.split('@')` must
have exactly two pieces and the second must parse as an `int`
(`int()` raising is modelled by `charsToInt? = none`). -/
def splitKey (k : List Char) : Except String (List Char × ℤ) :=
  match splitChar '@' k with
  | [a, d] =>
    match charsToInt? d with
    | some n => .ok (a, n)
    | none => .error "invalid literal for int"
  | _ => .error "Invalid read key format"

/-- The key validation of `TCM.__init__` (`TCM.py:53-97`): the
write-without-keys guard, header construction with dedup, slot splitting,
and the `num_devices` count check.  Serial I/O and `precheck` are outside
the model. -/
def tcm_validate (read_keys write_keys : List (List Char)) (write : Bool)
    (num_devices : Option ℕ) :
    Except String (List (List Char) × List (List Char × ℤ)) :=
  if write ∧ write_keys.isEmpty then
    .error "Write keys must be specified for writing data"
  else do
    let header ← buildHeaderAux [] (read_keys ++ if write then write_keys else [])
    let slots ← mapE splitKey header
    match num_devices with
    | some n =>
      if ((slots.map Prod.snd).dedup).length ≠ n then
        .error "The number of devices does not match the number of read keys"
      else .ok (header, slots)
    | none => .ok (header, slots)

/-- `TCM.__init__` (`TCM.py:28-115`) as a pure validation pipeline: the base
class's `sampling_time > 0` assertion, the key validation, then the timing
check of lines 110-115, `read_time_buffer = cmd_gap * header_size + 0.005`,
raising when `sampling_time < read_time_buffer`. -/
def tcm_init (read_keys write_keys : List (List Char)) (write : Bool)
    (num_devices : Option ℕ) (cmd_gap sampling_time : ℚ) :
    Except String (List (List Char) × List (List Char × ℤ)) :=
  if ¬ 0 < sampling_time then .error "Sampling time must be greater than 0"
  else
    match tcm_validate read_keys write_keys write num_devices with
    | .error e => .error e
    | .ok (header, slots) =>
      if sampling_time < cmd_gap * header.length + 1 / 200 then
        .error "The sampling time must be greater than the read time buffer"
      else .ok (header, slots)

/-- One response line of `TCM.read_data` (`TCM.py:184-185`):
`float(ele.split('=')[1][:-len(f'@{dev}')])`; the negative slice keeps all
but the last `len('@' + str(dev))` characters, `float()` raising is
`toFloat? = none`. -/
def tcm_parse_line (toFloat? : List Char → Option ℚ) (dev : ℤ) (ele : List Char) :
    Except String ℚ :=
  match splitChar '=' ele with
  | _ :: v :: _ =>
    match toFloat? (v.take (v.length - ('@' :: (toString dev).data).length)) with
    | some x => .ok x
    | none => .error "could not convert string to float"
  | _ => .error "list index out of range"

/-- The response processing of `TCM.read_data` (`TCM.py:172-188`): frame the
readout on `'\r'` (dropping the trailing piece), yield Python `None`
(`.ok none`) when the line count differs from the slot count, otherwise
parse one value per line. -/
def tcm_read_data (toFloat? : List Char → Option ℚ) (devices_lst : List ℤ)
    (output_str : List Char) : Except String (Option (List ℚ)) :=
  let lines := (splitChar '\r' output_str).dropLast
  if lines.length ≠ devices_lst.length then .ok none
  else do
    let vals ← mapE (fun p => tcm_parse_line toFloat? p.2 p.1)
      (lines.zip devices_lst)
    .ok (some vals)

/-! ## `src/devices/FluxDAQ.py` -/

/-- One sensor's configuration record (`sensors[str(id)]`): the heat-flux
enablement flag `q` and its calibration `s_value`. -/
structure FluxSensor where
  q : Bool
  s_value : Option ℚ

/-- One iteration of the header/port loop of `FluxDAQ.__init__`
(`FluxDAQ.py:39-50`): a configured sensor appends `q{id}` (when heat flux is
enabled, after the `s_value` check) and `T{id}` to the header and marks the
matching pair of ports active; an absent id leaves the state alone. -/
def fluxBuildStep (sensors : ℕ → Option FluxSensor)
    (st : List String × List Bool) (id : ℕ) :
    Except String (List String × List Bool) :=
  match sensors id with
  | none => .ok st
  | some sensor =>
    if sensor.q then
      match sensor.s_value with
      | none => .error "s_value must be greater than 0 for enabled sensors"
      | some sv =>
        if sv ≤ 0 then .error "s_value must be greater than 0 for enabled sensors"
        else .ok (st.1 ++ ["q" ++ toString id, "T" ++ toString id],
          (st.2.set (2 * (id - 1)) true).set (2 * (id - 1) + 1) true)
    else .ok (st.1 ++ ["T" ++ toString id], st.2.set (2 * (id - 1) + 1) true)

/-- The loop of `FluxDAQ.__init__` over ids `1..R`. -/
def fluxLoop (sensors : ℕ → Option FluxSensor) :
    List ℕ → (List String × List Bool) → Except String (List String × List Bool)
  | [], st => .ok st
  | id :: ids, st => do
    fluxLoop sensors ids (← fluxBuildStep sensors st id)

/-- `FluxDAQ.__init__` (`FluxDAQ.py:35-50`) restricted to what `read_data`
consumes: the header and `active_ports` (initially `[False] * 2 * R`);
serial handshakes and `s_list` are outside the model. -/
def fluxBuild (sensors : ℕ → Option FluxSensor) (R : ℕ) :
    Except String (List String × List Bool) :=
  fluxLoop sensors (List.range' 1 R) ([], List.replicate (2 * R) false)

/-- `FluxDAQ.read_data` (`FluxDAQ.py:110-124`): split the line on `','`;
when the piece count differs from `report_num_sensors * 2` yield Python
`None`; otherwise keep one value per active port, an unparsable field
becoming NaN rather than failing the sample. -/
def fluxdaq_read (toFloat? : List Char → Option ℚ) (active_ports : List Bool)
    (output_str : List Char) : Option (List Val) :=
  let parts := splitChar ',' output_str
  if parts.length ≠ active_ports.length then none
  else some ((parts.zip active_ports).filterMap
    (fun p => if p.2 then some (toFloat? p.1) else none))

/-! ## `src/devices/SMTC.py` (class `TCHAT`) -/

/-- One thermocouple channel's configuration: `v.get('q', False)`,
`v['s_value']` and `v.get('type', 'K')`. -/
structure TchatSensor where
  q : Bool
  s_value : Option ℚ
  stype : String

/-- The `_sensor_types` table keys (`SMTC.py:13-22`). -/
def tchat_sensor_types : List String := ["B", "E", "J", "K", "N", "R", "S", "T"]

/-- The configuration loop of `TCHAT.__init__` (`SMTC.py:67-87`): validate
the sensor type, build the header (one `q{k}@TCHAT{addr}` or
`T{k}@TCHAT{addr}` label per channel) and the `sensors2read` map from
channel to command and coefficient (`1000 / s_value` for heat flux).
`tchatEntry` is the per-channel body of that loop. -/
def tchatEntry (addr : String) (k : ℕ) (v : TchatSensor) :
    Except String (String × String × ℚ) :=
  if v.q then
    match v.s_value with
    | none => .error "s_value must be greater than 0 for enabled sensors"
    | some sv =>
      if sv ≤ 0 then .error "s_value must be greater than 0 for enabled sensors"
      else .ok (("q" ++ toString k ++ "@TCHAT" ++ addr, ("readmv", 1000 / sv)))
  else .ok (("T" ++ toString k ++ "@TCHAT" ++ addr, ("read", (1 : ℚ))))

def tchatBuild (addr : String) :
    List (ℕ × TchatSensor) → Except String (List String × List (ℕ × String × ℚ))
  | [] => .ok ([], [])
  | (k, v) :: rest =>
    if ¬ tchat_sensor_types.contains v.stype then .error "Invalid sensor type"
    else do
      let entry ← tchatEntry addr k v
      let st ← tchatBuild addr rest
      .ok (entry.1 :: st.1, (k, entry.2) :: st.2)

/-- Sorted insertion, for the model of Python `sorted`. -/
def insertLe (a : ℕ) : List ℕ → List ℕ
  | [] => [a]
  | b :: bs => if a ≤ b then a :: b :: bs else b :: insertLe a bs

/-- Python `sorted` on a list of naturals, as insertion sort. -/
def sortLe : List ℕ → List ℕ
  | [] => []
  | a :: as => insertLe a (sortLe as)

/-- `sensor_ids = sorted([int(id) for id in sensors.keys()])` (`SMTC.py:56`). -/
def sensorIds (sensors : List (ℕ × TchatSensor)) : List ℕ :=
  sortLe (sensors.map Prod.fst)

/-- `TCHAT.read_data` (`SMTC.py:111-122`): for each channel in
`sensor_ids`, look up its command and coefficient, run `smtc` (its stdout
for channel `ch` is `outputs ch`), and append `float(output) * coeff`. -/
def tchat_read (toFloat? : List Char → Option ℚ) (s2r : List (ℕ × String × ℚ))
    (ids : List ℕ) (outputs : ℕ → List Char) : Except String (List ℚ) :=
  mapE (fun ch =>
    match s2r.lookup ch with
    | none => .error "KeyError"
    | some sc =>
      match toFloat? (outputs ch) with
      | some x => .ok (x * sc.2)
      | none => .error "could not convert string to float") ids

/-- A concrete instance of the abstract `float()` parameter, used to
evaluate the theorems on closed inputs: parses integer literals only. -/
def toFloat0 (s : List Char) : Option ℚ := (charsToInt? s).map (fun n => (n : ℚ))

/-! ## Basic lemmas -/

/-- Bind on a successful step runs the continuation. -/
theorem except_bind_ok {ε α β : Type} (a : α) (k : α → Except ε β) :
    ((Except.ok a : Except ε α) >>= k) = k a := rfl

/-- Bind on a failed step keeps the failure. -/
theorem except_bind_err {ε α β : Type} (e : ε) (k : α → Except ε β) :
    ((Except.error e : Except ε α) >>= k) = Except.error e := rfl

/-- Pure is the successful constructor. -/
theorem except_pure {ε α : Type} (a : α) :
    (pure a : Except ε α) = Except.ok a := rfl

/-- The queue left behind by `dequeue_data` is the one left by its loop. -/
theorem dequeue_data_snd (q : List Entry) (t : ℚ) :
    (dequeue_data q t).2 = (dequeueLoop q t).2 := by
  cases h : (dequeueLoop q t).1 <;> simp [dequeue_data, h]

/-- A successful `mapE` produces one output per input. -/
theorem mapE_length {α β : Type} (f : α → Except String β) :
    ∀ (l : List α) (out : List β), mapE f l = .ok out → out.length = l.length := by
  intro l
  induction l with
  | nil =>
    intro out h
    simp only [mapE] at h
    cases h
    rfl
  | cons a as ih =>
    intro out h
    simp only [mapE] at h
    cases hfa : f a with
    | error e => rw [hfa, except_bind_err] at h; cases h
    | ok b =>
      rw [hfa, except_bind_ok] at h
      cases hrest : mapE f as with
      | error e => rw [hrest, except_bind_err] at h; cases h
      | ok bs =>
        rw [hrest, except_bind_ok] at h
        cases h
        simp [ih bs hrest]

/-- On sorted queues the drain loop takes exactly the entries below `t`. -/
theorem getD_map_range {α : Type} (f : ℕ → α) (d : α) {n j : ℕ} (h : j < n) :
    ((List.range n).map f).getD j d = f j := by
  rw [List.getD_eq_getElem?_getD, List.getElem?_map, List.getElem?_range h]
  rfl

/-- Column extraction commutes with projecting entries to their rows. -/
theorem colVals_map_data (l : List Entry) (j : ℕ) :
    colVals (l.map Entry.data) j = l.filterMap (fun e => e.data.getD j none) := by
  simp [colVals, List.filterMap_map]
  rfl

/-! ## Claims -/

/-- Claim C10: on a queue whose entries are in non-decreasing timestamp
order, `dequeue_data` with boundary `t` removes exactly the leading entries
with timestamp strictly below `t`, and every entry with timestamp at or
past `t` remains in the queue, unmodified and in its original order. -/
theorem dequeue_removes_exactly_older (q : List Entry) (t : ℚ)
    (hsort : q.Pairwise (fun a b => a.ts ≤ b.ts)) :
    (dequeueLoop q t).1 = q.filter (fun e => e.ts < t) ∧
    (dequeue_data q t).2 = q.filter (fun e => t ≤ e.ts) := by
  rw [dequeue_data_snd]
  induction q with
  | nil => simp [dequeueLoop]
  | cons e rest ih =>
    obtain ⟨he, hrest⟩ := List.pairwise_cons.mp hsort
    by_cases h : e.ts < t
    · have ihr := ih hrest
      refine ⟨?_, ?_⟩
      · simp [dequeueLoop, h, List.filter_cons, ihr.1]
      · simp [dequeueLoop, h, List.filter_cons, not_le.mpr h, ihr.2]
    · have hte : t ≤ e.ts := not_lt.mp h
      have hall : ∀ b ∈ rest, t ≤ b.ts := fun b hb => le_trans hte (he b hb)
      refine ⟨?_, ?_⟩
      · simp [dequeueLoop, h, List.filter_cons]
        exact hall
      · simp [dequeueLoop, h, List.filter_cons, hte]
        exact (List.filter_eq_self.mpr (fun b hb => by simpa using hall b hb)).symm

/-- Witness for C10 at a concrete sorted queue and boundary `1`. -/
theorem dequeue_removes_exactly_older_witness :
    ([⟨0, [some 1]⟩, ⟨2, [some 3]⟩] : List Entry).Pairwise (fun a b => a.ts ≤ b.ts) ∧
    ((dequeueLoop [⟨0, [some 1]⟩, ⟨2, [some 3]⟩] 1).1
        = List.filter (fun e => e.ts < 1) [⟨0, [some 1]⟩, ⟨2, [some 3]⟩] ∧
      (dequeue_data [⟨0, [some 1]⟩, ⟨2, [some 3]⟩] 1).2
        = List.filter (fun e => 1 ≤ e.ts) [⟨0, [some 1]⟩, ⟨2, [some 3]⟩]) :=
  ⟨by norm_num, dequeue_removes_exactly_older _ _ (by norm_num)⟩

/-- Claim C5: when the drain for a window is non-empty (and rectangular of
width `n`), `dequeue_data` returns a vector of width `n` whose channel `j`
is the arithmetic mean of the non-NaN channel-`j` values of the drained
samples, NaN being excluded from the mean, and is NaN exactly when every
drained sample is NaN on that channel. -/
theorem dequeue_mean_of_window (q : List Entry) (t : ℚ) (n : ℕ)
    (hne : (dequeueLoop q t).1 ≠ [])
    (hrect : ∀ e ∈ (dequeueLoop q t).1, e.data.length = n) :
    ∃ m, (dequeue_data q t).1 = some m ∧ m.length = n ∧
      ∀ j, j < n →
        m.getD j none =
          (if ((dequeueLoop q t).1.filterMap (fun e => e.data.getD j none)).isEmpty
            then none
            else some ((((dequeueLoop q t).1.filterMap (fun e => e.data.getD j none)).sum)
              / (((dequeueLoop q t).1.filterMap (fun e => e.data.getD j none)).length : ℚ))) := by
  cases hd : (dequeueLoop q t).1 with
  | nil => exact absurd hd hne
  | cons r rs =>
    have hr : r.data.length = n := hrect r (by rw [hd]; exact List.mem_cons_self r rs)
    refine ⟨nanmean ((r :: rs).map Entry.data) r.data.length, ?_, ?_, ?_⟩
    · simp [dequeue_data, hd]
    · simp [nanmean, hr]
    · intro j hj
      rw [nanmean, hr, getD_map_range _ _ hj]
      simp only [colVals_map_data]

/-- Witness for C5: drained single-channel samples `[3, NaN, 5]` give the
NaN-excluding mean `(3 + 5) / 2 = 4`. -/
theorem dequeue_mean_of_window_witness :
    ((dequeueLoop [⟨1/10, [some 3]⟩, ⟨1/5, [none]⟩, ⟨3/10, [some 5]⟩] 1).1 ≠ [] ∧
      ∀ e ∈ (dequeueLoop [⟨1/10, [some 3]⟩, ⟨1/5, [none]⟩, ⟨3/10, [some 5]⟩] 1).1,
        e.data.length = 1) ∧
    (∃ m, (dequeue_data [⟨1/10, [some 3]⟩, ⟨1/5, [none]⟩, ⟨3/10, [some 5]⟩] 1).1 = some m ∧
      m.length = 1 ∧
      ∀ j, j < 1 →
        m.getD j none =
          (if ((dequeueLoop [⟨1/10, [some 3]⟩, ⟨1/5, [none]⟩, ⟨3/10, [some 5]⟩] 1).1.filterMap
                (fun e => e.data.getD j none)).isEmpty
            then none
            else some ((((dequeueLoop [⟨1/10, [some 3]⟩, ⟨1/5, [none]⟩, ⟨3/10, [some 5]⟩] 1).1.filterMap
                (fun e => e.data.getD j none)).sum)
              / (((dequeueLoop [⟨1/10, [some 3]⟩, ⟨1/5, [none]⟩, ⟨3/10, [some 5]⟩] 1).1.filterMap
                (fun e => e.data.getD j none)).length : ℚ)))) ∧
    (dequeue_data [⟨1/10, [some 3]⟩, ⟨1/5, [none]⟩, ⟨3/10, [some 5]⟩] 1).1 = some [some 4] :=
  ⟨⟨by norm_num [dequeueLoop]; simp, by norm_num [dequeueLoop]⟩,
    dequeue_mean_of_window _ _ _ (by norm_num [dequeueLoop]; simp)
      (by norm_num [dequeueLoop]),
    by norm_num [dequeue_data, dequeueLoop, nanmean, colVals, List.filterMap_cons,
      List.getD, Option.getD, List.range_succ]; simp⟩

/-- Claim C1 fails on the code: `array_start_idx` is
`[0] + [len(h) for h in headers[:-1]]`, not the running sum of header
lengths, so with the three headers `["a","b"], ["c"], ["d"]` the offsets
are `[0, 2, 1]` and a collected window writes device 3's value over
device 1's second channel: the merged row is not the concatenation of the
device contributions (which would be `[10, 20, 30, 40]`). -/
theorem merged_row_offsets_failing :
    array_start_idx demoHeaders = [0, 2, 1] ∧
    demoC1.latest_array_data
      = [some (some 10), some (some 40), some (some 30), none] ∧
    ([some (some 10), some (some 40), some (some 30), none] : List (Option Val))
      ≠ (([some 10, some 20] ++ [some 30] ++ [some 40] : List Val)).map some := by
  refine ⟨by norm_num [array_start_idx, demoHeaders], ?_, by simp⟩
  norm_num [demoC1, demoHeaders, collect_data, collectStep, dequeue_data, dequeueLoop,
    nanmean, colVals, update_data, update_dict_data, update_array_data,
    update_queue_data, setSlice, mkCollector, dictOfKeys, dictInsert, array_start_idx,
    List.range_succ, List.filterMap_cons, List.getD, Option.getD]

/-- Claim C6 fails on the code for the merged array view: in window 2 below,
device 1 (queue index 0) yields no samples and its `latest_queue_data` cache
correctly keeps its window-1 contribution `[10, 20]`, but because of the
`array_start_idx` offsets, device 3's fresh window-2 value `50` is written
into device 1's second slot of the flat array view, so that view no longer
equals device 1's most recent produced contribution. -/
theorem gap_fill_array_view_failing :
    demoC6.latest_queue_data.getD 0 none = some [some 10, some 20] ∧
    demoC6.latest_array_data.take 2 = [some (some 10), some (some 50)] ∧
    ([some (some 10), some (some 50)] : List (Option Val))
      ≠ (([some 10, some 20] : List Val)).map some := by
  refine ⟨?_, ?_, by simp⟩ <;>
  norm_num [demoC6, demoHeaders, collect_data, collectStep, dequeue_data, dequeueLoop,
    nanmean, colVals, update_data, update_dict_data, update_array_data,
    update_queue_data, setSlice, mkCollector, dictOfKeys, dictInsert, array_start_idx,
    List.range_succ, List.filterMap_cons, List.getD, Option.getD]

/-- Claim C2 fails on the code for `write_cmd`: its guard
`if err_code != 1 or err_code != 8` is a tautology, so the single-command
path raises on every response — including the success code 1 that the
spec's scenario `CMD:TEMP=1@3` requires to pass — while the batched
`write_cmds` path (`!= 1 and != 8`) accepts codes 1 and 8 as the claim
states. -/
theorem write_cmd_always_raises :
    (∀ (attr : List Char) (addr : ℤ) (readout : List Char),
      write_cmd attr addr readout ≠ .passed) ∧
    write_cmd "TEMP".data 3 "CMD:TEMP=1@3".data
      = .errorCode "TEMP".data 3 (some 1) ∧
    write_cmds ["TEMP".data] [3] "CMD:TEMP=1@3\r".data = .passed := by
  refine ⟨?_, by decide, by decide⟩
  intro attr addr readout
  cases hec : extract_error_code readout with
  | error e => simp [write_cmd, hec]
  | ok code =>
    have hcond : code ≠ some 1 ∨ code ≠ some 8 := by
      by_cases h : code = some 1
      · exact Or.inr (by simp [h])
      · exact Or.inl h
    simp [write_cmd, hec, hcond]

/-- Inverting a successful `tcm_validate`: the header came from
`buildHeaderAux` and the slots from splitting it. -/
theorem tcm_validate_ok_inv {rk wk : List (List Char)} {w : Bool}
    {nd : Option ℕ} {hdr : List (List Char)} {slots : List (List Char × ℤ)}
    (h : tcm_validate rk wk w nd = .ok (hdr, slots)) :
    buildHeaderAux [] (rk ++ if w then wk else []) = .ok hdr ∧
    mapE splitKey hdr = .ok slots := by
  unfold tcm_validate at h
  split at h
  · cases h
  · cases hb : buildHeaderAux [] (rk ++ if w then wk else []) with
    | error e => rw [hb, except_bind_err] at h; cases h
    | ok hdr0 =>
      rw [hb, except_bind_ok] at h
      cases hm : mapE splitKey hdr0 with
      | error e => rw [hm, except_bind_err] at h; cases h
      | ok slots0 =>
        rw [hm, except_bind_ok] at h
        cases nd with
        | none => cases h; exact ⟨rfl, hm⟩
        | some n =>
          simp only at h
          split at h
          · cases h
          · cases h; exact ⟨rfl, hm⟩

/-- A successful `tcm_init` passed the validation stage unchanged. -/
theorem tcm_init_ok_inv {rk wk : List (List Char)} {w : Bool} {nd : Option ℕ}
    {g t : ℚ} {res : List (List Char) × List (List Char × ℤ)}
    (h : tcm_init rk wk w nd g t = .ok res) :
    tcm_validate rk wk w nd = .ok res := by
  unfold tcm_init at h
  split at h
  · cases h
  · split at h
    · cases h
    · split at h
      · cases h
      · cases h; assumption

/-- A `buildHeaderAux` run that succeeds over a duplicate-free accumulator
yields a duplicate-free header holding exactly the accumulated and the
incoming keys, every incoming key containing `'@'`. -/
theorem buildHeaderAux_ok :
    ∀ (keys acc hdr : List (List Char)), acc.Nodup →
    buildHeaderAux acc keys = .ok hdr →
    hdr.Nodup ∧ (∀ k, k ∈ hdr ↔ k ∈ acc ∨ k ∈ keys) ∧
      (∀ k ∈ keys, k.contains '@') := by
  intro keys
  induction keys with
  | nil =>
    intro acc hdr hnd h
    simp only [buildHeaderAux] at h
    cases h
    exact ⟨hnd, fun k => by simp, by simp⟩
  | cons k rest ih =>
    intro acc hdr hnd h
    simp only [buildHeaderAux] at h
    split at h
    · cases h
    · rename_i hat
      rw [not_not] at hat
      split at h
      · rename_i hmem
        obtain ⟨h1, h2, h3⟩ := ih acc hdr hnd h
        refine ⟨h1, ?_, ?_⟩
        · intro k'
          rw [h2 k']
          constructor
          · rintro (h' | h')
            · exact Or.inl h'
            · exact Or.inr (List.mem_cons_of_mem _ h')
          · rintro (h' | h')
            · exact Or.inl h'
            · rcases List.mem_cons.mp h' with h'' | h''
              · exact Or.inl (h'' ▸ List.mem_of_elem_eq_true hmem)
              · exact Or.inr h''
        · intro k' hk'
          rcases List.mem_cons.mp hk' with h'' | h''
          · exact h'' ▸ hat
          · exact h3 k' h''
      · rename_i hmem
        have hnd' : (acc ++ [k]).Nodup := by
          rw [List.nodup_append]
          refine ⟨hnd, List.nodup_singleton k, ?_⟩
          intro a ha hb
          rcases List.mem_singleton.mp hb with rfl
          exact hmem (List.elem_eq_true_of_mem ha)
        obtain ⟨h1, h2, h3⟩ := ih (acc ++ [k]) hdr hnd' h
        refine ⟨h1, ?_, ?_⟩
        · intro k'
          rw [h2 k']
          simp [List.mem_append, List.mem_cons]
          tauto
        · intro k' hk'
          rcases List.mem_cons.mp hk' with h'' | h''
          · exact h'' ▸ hat
          · exact h3 k' h''

/-- Every element fed through a successful `mapE` has a successful image. -/
theorem mapE_ok_forall {α β : Type} (f : α → Except String β) :
    ∀ (l : List α) (out : List β), mapE f l = .ok out →
    ∀ a ∈ l, ∃ b, f a = .ok b := by
  intro l
  induction l with
  | nil => intro out h a ha; cases ha
  | cons x xs ih =>
    intro out h a ha
    simp only [mapE] at h
    cases hfx : f x with
    | error e => rw [hfx, except_bind_err] at h; cases h
    | ok b =>
      rw [hfx, except_bind_ok] at h
      cases hrest : mapE f xs with
      | error e => rw [hrest, except_bind_err] at h; cases h
      | ok bs =>
        rcases List.mem_cons.mp ha with rfl | ha'
        · exact ⟨b, hfx⟩
        · exact ih bs hrest a ha'

/-- Claim C3's duplicate-rejection half fails on the code: a TCM configured
with the same slot string twice constructs successfully, the duplicate
being silently dropped from the header rather than rejected. -/
theorem duplicate_slots_accepted :
    tcm_validate ["A@1".data, "A@1".data] [] false none
      = .ok (["A@1".data], [("A".data, 1)]) ∧
    tcm_init ["A@1".data, "A@1".data] [] false none (3/40) 2
      = .ok (["A@1".data], [("A".data, 1)]) := by
  have hv : tcm_validate ["A@1".data, "A@1".data] [] false none
      = .ok (["A@1".data], [("A".data, 1)]) := by rfl
  refine ⟨hv, ?_⟩
  norm_num [tcm_init, hv]

/-- Claim C3, amended: construction validates every configured slot string
(a key without `'@'`, with more than one `'@'`, or with a non-integer
address makes validation fail), but duplicate slot labels are silently
deduplicated — the header is duplicate-free and contains exactly the
configured keys — rather than rejected. -/
theorem tcm_validate_format_and_dedup (rk wk : List (List Char)) (w : Bool)
    (nd : Option ℕ) (hdr : List (List Char)) (slots : List (List Char × ℤ))
    (hv : tcm_validate rk wk w nd = .ok (hdr, slots)) :
    hdr.Nodup ∧
    (∀ k, k ∈ hdr ↔ k ∈ rk ++ (if w then wk else [])) ∧
    (∀ k ∈ rk ++ (if w then wk else []),
      k.contains '@' ∧ ∃ s, splitKey k = .ok s) := by
  obtain ⟨hb, hm⟩ := tcm_validate_ok_inv hv
  obtain ⟨h1, h2, h3⟩ := buildHeaderAux_ok _ [] hdr List.nodup_nil hb
  refine ⟨h1, ?_, ?_⟩
  · intro k
    rw [h2 k]
    simp
  · intro k hk
    refine ⟨h3 k hk, ?_⟩
    exact mapE_ok_forall splitKey hdr slots hm k ((h2 k).mpr (Or.inr hk))

/-- Witness for the amended C3, at the duplicated configuration
`["A@1", "A@1"]`: the header is the single deduplicated key. -/
theorem tcm_validate_format_and_dedup_witness :
    tcm_validate ["A@1".data, "A@1".data] [] false none
      = .ok (["A@1".data], [("A".data, 1)]) ∧
    ((["A@1".data] : List (List Char)).Nodup ∧
      (∀ k, k ∈ (["A@1".data] : List (List Char))
        ↔ k ∈ ["A@1".data, "A@1".data] ++ (if false then ([] : List (List Char)) else [])) ∧
      (∀ k ∈ (["A@1".data, "A@1".data] ++ (if false then ([] : List (List Char)) else [])),
        k.contains '@' ∧ ∃ s, splitKey k = .ok s)) :=
  ⟨rfl, tcm_validate_format_and_dedup ["A@1".data, "A@1".data] [] false none
    ["A@1".data] [("A".data, 1)] rfl⟩

/-- Claim C4's boundary fails on the code: the check is
`sampling_time < read_time_buffer`, a strict inequality, so a sampling
period exactly equal to `gap * slots + 0.005` — which is not strictly
greater than the buffer, hence must be rejected per the claim — is
accepted: with 3 slots, gap 0 and sampling period 0.005 construction
succeeds. -/
theorem timing_equality_accepted :
    ¬ ((0 : ℚ) * 3 + 1 / 200 < 1 / 200) ∧
    tcm_init ["A@1".data, "B@1".data, "C@2".data] [] false none 0 (1 / 200)
      = .ok (["A@1".data, "B@1".data, "C@2".data],
        [("A".data, 1), ("B".data, 1), ("C".data, 2)]) := by
  have hv : tcm_validate ["A@1".data, "B@1".data, "C@2".data] [] false none
      = .ok (["A@1".data, "B@1".data, "C@2".data],
        [("A".data, 1), ("B".data, 1), ("C".data, 2)]) := by rfl
  exact ⟨by norm_num, by norm_num [tcm_init, hv]⟩

/-- Claim C4, amended: once the key validation passes, construction
succeeds iff `cmd_gap * header_size + 0.005 ≤ sampling_time` and raises the
timing error iff `sampling_time < cmd_gap * header_size + 0.005` — a strict
comparison, so the exact-equality boundary is accepted; in particular the
3-slot, gap-0.075, period-0.2 configuration is rejected
(`0.2 < 3 × 0.075 + 0.005`). -/
theorem tcm_timing_check (rk wk : List (List Char)) (w : Bool)
    (nd : Option ℕ) (g t : ℚ) (hdr : List (List Char))
    (slots : List (List Char × ℤ))
    (hv : tcm_validate rk wk w nd = .ok (hdr, slots)) (ht : 0 < t) :
    (tcm_init rk wk w nd g t = .ok (hdr, slots)
      ↔ g * hdr.length + 1 / 200 ≤ t) ∧
    (tcm_init rk wk w nd g t
        = .error "The sampling time must be greater than the read time buffer"
      ↔ t < g * hdr.length + 1 / 200) := by
  have h0 : ¬ ¬ 0 < t := not_not.mpr ht
  by_cases hb : t < g * hdr.length + 1 / 200
  · constructor
    · simp [tcm_init, hv, h0, hb, not_le.mpr hb]
    · simp [tcm_init, hv, h0, hb]
  · constructor
    · simp [tcm_init, hv, h0, hb, not_lt.mp hb]
    · simp [tcm_init, hv, h0, hb]

/-- Witness for the amended C4 at the spec's scenario: 3 slots, gap 0.075,
sampling period 0.2; the buffer is 0.23, so construction is rejected. -/
theorem tcm_timing_check_witness :
    tcm_validate ["A@1".data, "B@1".data, "C@2".data] [] false none
      = .ok (["A@1".data, "B@1".data, "C@2".data],
        [("A".data, 1), ("B".data, 1), ("C".data, 2)]) ∧
    (0 : ℚ) < 1 / 5 ∧
    ((tcm_init ["A@1".data, "B@1".data, "C@2".data] [] false none (3/40) (1/5)
        = .ok (["A@1".data, "B@1".data, "C@2".data],
          [("A".data, 1), ("B".data, 1), ("C".data, 2)])
      ↔ (3/40 : ℚ) * (["A@1".data, "B@1".data, "C@2".data] : List (List Char)).length
          + 1 / 200 ≤ 1/5) ∧
    (tcm_init ["A@1".data, "B@1".data, "C@2".data] [] false none (3/40) (1/5)
        = .error "The sampling time must be greater than the read time buffer"
      ↔ (1/5 : ℚ) < (3/40 : ℚ)
          * (["A@1".data, "B@1".data, "C@2".data] : List (List Char)).length
          + 1 / 200)) :=
  ⟨rfl, by norm_num,
    tcm_timing_check ["A@1".data, "B@1".data, "C@2".data] [] false none
      (3/40) (1/5) ["A@1".data, "B@1".data, "C@2".data]
      [("A".data, 1), ("B".data, 1), ("C".data, 2)] rfl (by norm_num)⟩

/-- Claim C7: when the number of framed response lines differs from the
number of configured slots, `TCM.read_data` and `FluxDAQ.read_data` both
yield Python `None` ("no data") without raising and without building a
partial sample; the models keep no cycle state, so the next cycle starts
from scratch. -/
theorem read_count_mismatch_no_data (toFloat? : List Char → Option ℚ)
    (devs : List ℤ) (active : List Bool) (s1 s2 : List Char)
    (h1 : ((splitChar '\r' s1).dropLast).length ≠ devs.length)
    (h2 : (splitChar ',' s2).length ≠ active.length) :
    tcm_read_data toFloat? devs s1 = .ok none ∧
    fluxdaq_read toFloat? active s2 = none := by
  constructor
  · simp only [tcm_read_data]
    rw [if_pos h1]
  · simp only [fluxdaq_read]
    rw [if_pos h2]

/-- Witness for C7: one framed line against two slots, and two
comma-separated fields against one active port. -/
theorem read_count_mismatch_no_data_witness :
    ((splitChar '\r' "A=1@3\r".data).dropLast).length ≠ ([3, 4] : List ℤ).length ∧
    (splitChar ',' "1,2".data).length ≠ ([true] : List Bool).length ∧
    (tcm_read_data toFloat0 [3, 4] "A=1@3\r".data = .ok none ∧
      fluxdaq_read toFloat0 [true] "1,2".data = none) :=
  ⟨by decide, by decide,
    read_count_mismatch_no_data toFloat0 [3, 4] [true] "A=1@3\r".data "1,2".data
      (by decide) (by decide)⟩

/-- Setting an index that is currently false and in range bumps the count
of `true` entries by one. -/
theorem count_true_set (l : List Bool) (j : ℕ) (hj : j < l.length)
    (hf : l.getD j false = false) :
    (l.set j true).count true = l.count true + 1 := by
  induction l generalizing j with
  | nil => simp at hj
  | cons b bs ih =>
    cases j with
    | zero =>
      simp only [List.getD_cons_zero] at hf
      subst hf
      simp [List.count_cons]
    | succ j =>
      simp only [List.getD_cons_succ] at hf
      simp only [List.length_cons, Nat.succ_lt_succ_iff] at hj
      have hset : (b :: bs).set (j + 1) true = b :: bs.set j true := rfl
      rw [hset]
      cases b <;> simp [List.count_cons, ih j hj hf]

/-- Setting one index leaves every other index unchanged. -/
theorem getD_set_ne (l : List Bool) (i j : ℕ) (x d : Bool) (h : i ≠ j) :
    (l.set i x).getD j d = l.getD j d := by
  induction l generalizing i j with
  | nil => rfl
  | cons b bs ih =>
    cases i with
    | zero =>
      cases j with
      | zero => exact absurd rfl h
      | succ j => simp
    | succ i =>
      cases j with
      | zero => simp
      | succ j => simpa using ih i j (fun hc => h (by rw [hc]))

/-- Characterisation of one successful `FluxDAQ.__init__` loop step: an
absent id leaves the state unchanged, a heat-flux sensor appends two header
labels and activates both its ports, a temperature-only sensor appends one
label and activates the second port. -/
theorem fluxBuildStep_ok (sensors : ℕ → Option FluxSensor) (id : ℕ)
    (hdr : List String) (act : List Bool) (st : List String × List Bool)
    (h : fluxBuildStep sensors (hdr, act) id = .ok st) :
    st = (hdr, act) ∨
    (∃ sensor, sensors id = some sensor ∧ sensor.q = true ∧
      st = (hdr ++ ["q" ++ toString id, "T" ++ toString id],
        (act.set (2 * (id - 1)) true).set (2 * (id - 1) + 1) true)) ∨
    (∃ sensor, sensors id = some sensor ∧ sensor.q = false ∧
      st = (hdr ++ ["T" ++ toString id], act.set (2 * (id - 1) + 1) true)) := by
  unfold fluxBuildStep at h
  split at h
  · cases h
    exact Or.inl rfl
  · rename_i sensor hs
    split at h
    · rename_i hq
      split at h
      · cases h
      · split at h
        · cases h
        · cases h
          exact Or.inr (Or.inl ⟨sensor, hs, hq, rfl⟩)
    · rename_i hq
      cases h
      exact Or.inr (Or.inr ⟨sensor, hs, Bool.not_eq_true _ ▸ hq, rfl⟩)

/-- The invariant of the `FluxDAQ.__init__` loop: starting from a state
whose header length equals the number of active ports, with every pending
id at least 1, in range, distinct, and with both its ports still inactive,
a successful run ends with the header length equal to the number of active
ports (and the port list length unchanged). -/
theorem fluxLoop_count (sensors : ℕ → Option FluxSensor) :
    ∀ (L : List ℕ) (hdr : List String) (act : List Bool)
      (hdr' : List String) (act' : List Bool),
    (∀ id ∈ L, 1 ≤ id ∧ 2 * (id - 1) + 1 < act.length ∧
      act.getD (2 * (id - 1)) false = false ∧
      act.getD (2 * (id - 1) + 1) false = false) →
    L.Pairwise (· ≠ ·) →
    hdr.length = act.count true →
    fluxLoop sensors L (hdr, act) = .ok (hdr', act') →
    hdr'.length = act'.count true ∧ act'.length = act.length := by
  intro L
  induction L with
  | nil =>
    intro hdr act hdr' act' hids hnd hcnt h
    simp only [fluxLoop] at h
    cases h
    exact ⟨hcnt, rfl⟩
  | cons id ids ih =>
    intro hdr act hdr' act' hids hnd hcnt h
    obtain ⟨hid1, hidlt, hp0, hp1⟩ := hids id (List.mem_cons_self id ids)
    obtain ⟨hne, hnd'⟩ := List.pairwise_cons.mp hnd
    simp only [fluxLoop] at h
    cases hstep : fluxBuildStep sensors (hdr, act) id with
    | error e => rw [hstep, except_bind_err] at h; cases h
    | ok st =>
      rw [hstep, except_bind_ok] at h
      have hpos : ∀ b ∈ ids, 2 * (b - 1) ≠ 2 * (id - 1) ∧
          2 * (b - 1) ≠ 2 * (id - 1) + 1 ∧
          2 * (b - 1) + 1 ≠ 2 * (id - 1) ∧
          2 * (b - 1) + 1 ≠ 2 * (id - 1) + 1 := by
        intro b hb
        have hb1 : 1 ≤ b := (hids b (List.mem_cons_of_mem _ hb)).1
        have : id ≠ b := hne b hb
        omega
      rcases fluxBuildStep_ok sensors id hdr act st hstep with
        hcase | ⟨sensor, hs, hq, hcase⟩ | ⟨sensor, hs, hq, hcase⟩
      · subst hcase
        exact ih hdr act hdr' act'
          (fun b hb => hids b (List.mem_cons_of_mem _ hb)) hnd' hcnt h
      · subst hcase
        have e1 : (act.set (2 * (id - 1)) true).count true = act.count true + 1 :=
          count_true_set act _ (by omega) hp0
        have e2 : ((act.set (2 * (id - 1)) true).set (2 * (id - 1) + 1) true).count true
            = (act.set (2 * (id - 1)) true).count true + 1 :=
          count_true_set _ _ (by simpa using hidlt)
            (by rw [getD_set_ne _ _ _ _ _ (by omega)]; exact hp1)
        have hinv2 : ∀ b ∈ ids, 1 ≤ b ∧
            2 * (b - 1) + 1 < ((act.set (2 * (id - 1)) true).set (2 * (id - 1) + 1) true).length ∧
            ((act.set (2 * (id - 1)) true).set (2 * (id - 1) + 1) true).getD (2 * (b - 1)) false = false ∧
            ((act.set (2 * (id - 1)) true).set (2 * (id - 1) + 1) true).getD (2 * (b - 1) + 1) false = false := by
          intro b hb
          obtain ⟨hb1, hblt, hbp0, hbp1⟩ := hids b (List.mem_cons_of_mem _ hb)
          obtain ⟨q0, q1, q2, q3⟩ := hpos b hb
          refine ⟨hb1, by simpa using hblt, ?_, ?_⟩
          · rw [getD_set_ne _ _ _ _ _ (Ne.symm q1), getD_set_ne _ _ _ _ _ (Ne.symm q0)]
            exact hbp0
          · rw [getD_set_ne _ _ _ _ _ (Ne.symm q3), getD_set_ne _ _ _ _ _ (Ne.symm q2)]
            exact hbp1
        obtain ⟨r1, r2⟩ := ih _ _ hdr' act' hinv2 hnd' (by simp [e2, e1, hcnt]) h
        refine ⟨r1, ?_⟩
        rw [r2]
        simp
      · subst hcase
        have e1 : (act.set (2 * (id - 1) + 1) true).count true = act.count true + 1 :=
          count_true_set act _ hidlt hp1
        have hinv2 : ∀ b ∈ ids, 1 ≤ b ∧
            2 * (b - 1) + 1 < (act.set (2 * (id - 1) + 1) true).length ∧
            (act.set (2 * (id - 1) + 1) true).getD (2 * (b - 1)) false = false ∧
            (act.set (2 * (id - 1) + 1) true).getD (2 * (b - 1) + 1) false = false := by
          intro b hb
          obtain ⟨hb1, hblt, hbp0, hbp1⟩ := hids b (List.mem_cons_of_mem _ hb)
          obtain ⟨q0, q1, q2, q3⟩ := hpos b hb
          refine ⟨hb1, by simpa using hblt, ?_, ?_⟩
          · rw [getD_set_ne _ _ _ _ _ (Ne.symm q1)]
            exact hbp0
          · rw [getD_set_ne _ _ _ _ _ (Ne.symm q3)]
            exact hbp1
        obtain ⟨r1, r2⟩ := ih _ _ hdr' act' hinv2 hnd' (by simp [e1, hcnt]) h
        refine ⟨r1, ?_⟩
        rw [r2]
        simp

/-- A successful `FluxDAQ.__init__` produces a header with exactly one
label per active port. -/
theorem fluxBuild_count (sensors : ℕ → Option FluxSensor) (R : ℕ)
    (hdr : List String) (act : List Bool)
    (h : fluxBuild sensors R = .ok (hdr, act)) :
    hdr.length = act.count true := by
  have hrep : ∀ j d, (List.replicate (2 * R) false).getD j d = if j < 2 * R then false else d := by
    intro j d
    rw [List.getD_eq_getElem?_getD, List.getElem?_replicate]
    split <;> simp_all
  refine (fluxLoop_count sensors (List.range' 1 R) [] _ hdr act ?_ ?_ ?_ h).1
  · intro id hid
    rw [List.mem_range'_1] at hid
    refine ⟨hid.1, ?_, ?_, ?_⟩
    · simp only [List.length_replicate]
      omega
    · rw [hrep]
      split <;> rfl
    · rw [hrep]
      split <;> rfl
  · exact List.nodup_range' 1 R
  · simp [List.count_replicate]

/-- With matching frame length, the active-port filter keeps exactly one
value per active port. -/
theorem flux_filter_length (toFloat? : List Char → Option ℚ) :
    ∀ (act : List Bool) (parts : List (List Char)),
    parts.length = act.length →
    ((parts.zip act).filterMap
      (fun p => if p.2 then some (toFloat? p.1) else none)).length
      = act.count true := by
  intro act
  induction act with
  | nil =>
    intro parts hlen
    simp only [List.length_nil, List.length_eq_zero] at hlen
    subst hlen
    rfl
  | cons b bs ih =>
    intro parts hlen
    cases parts with
    | nil => simp at hlen
    | cons x xs =>
      simp only [List.length_cons, Nat.succ.injEq] at hlen
      cases b <;> simp [List.zip_cons_cons, List.filterMap_cons, ih xs hlen,
        List.count_cons]

/-- A sample accepted by `fluxdaq_read` has one value per active port. -/
theorem fluxdaq_read_length (toFloat? : List Char → Option ℚ)
    (act : List Bool) (s : List Char) (vals : List Val)
    (h : fluxdaq_read toFloat? act s = some vals) :
    vals.length = act.count true := by
  simp only [fluxdaq_read] at h
  split at h
  · cases h
  · rename_i hlen
    rw [not_ne_iff] at hlen
    cases h
    exact flux_filter_length toFloat? act _ hlen

/-- Insertion keeps one element more. -/
theorem insertLe_length (a : ℕ) (l : List ℕ) :
    (insertLe a l).length = l.length + 1 := by
  induction l with
  | nil => rfl
  | cons b bs ih =>
    unfold insertLe
    split <;> simp [ih]

/-- Sorting keeps the length. -/
theorem sortLe_length (l : List ℕ) : (sortLe l).length = l.length := by
  induction l with
  | nil => rfl
  | cons a as ih => simp [sortLe, insertLe_length, ih]

/-- A successful `TCHAT.__init__` configuration loop yields one header
label and one `sensors2read` entry per configured channel. -/
theorem tchatBuild_length (addr : String) :
    ∀ (sensors : List (ℕ × TchatSensor)) (hdr : List String)
      (s2r : List (ℕ × String × ℚ)),
    tchatBuild addr sensors = .ok (hdr, s2r) →
    hdr.length = sensors.length ∧ s2r.length = sensors.length := by
  intro sensors
  induction sensors with
  | nil =>
    intro hdr s2r h
    simp only [tchatBuild] at h
    cases h
    exact ⟨rfl, rfl⟩
  | cons kv rest ih =>
    intro hdr s2r h
    obtain ⟨k, v⟩ := kv
    simp only [tchatBuild] at h
    split at h
    · cases h
    · cases hentry : tchatEntry addr k v with
      | error e => rw [hentry, except_bind_err] at h; cases h
      | ok entry =>
        rw [hentry, except_bind_ok] at h
        cases hrest : tchatBuild addr rest with
        | error e => rw [hrest, except_bind_err] at h; cases h
        | ok st =>
          rw [hrest, except_bind_ok] at h
          cases h
          obtain ⟨ih1, ih2⟩ := ih st.1 st.2 (by rw [hrest])
          exact ⟨by simp [ih1], by simp [ih2]⟩

/-- A sample accepted by `tchat_read` has one value per polled channel. -/
theorem tchat_read_length (toFloat? : List Char → Option ℚ)
    (s2r : List (ℕ × String × ℚ)) (ids : List ℕ) (outputs : ℕ → List Char)
    (vals : List ℚ) (h : tchat_read toFloat? s2r ids outputs = .ok vals) :
    vals.length = ids.length :=
  mapE_length _ ids vals h

/-- Claim C8: whenever a device's `read_data` accepts a line and returns a
sample, the sample has exactly one value per header channel — for the TCM
bus (one framed line per configured slot), for FluxDAQ (one value per
active port), and for TCHAT (one value per polled channel).  Malformed
lines either degrade to "no data" or raise; they never produce a vector of
the wrong arity. -/
theorem read_arity_matches_header :
    (∀ (toFloat? : List Char → Option ℚ) (rk wk : List (List Char)) (w : Bool)
      (nd : Option ℕ) (g t : ℚ) (hdr : List (List Char))
      (slots : List (List Char × ℤ)) (s : List Char) (vals : List ℚ),
      tcm_init rk wk w nd g t = .ok (hdr, slots) →
      tcm_read_data toFloat? (slots.map Prod.snd) s = .ok (some vals) →
      vals.length = hdr.length) ∧
    (∀ (toFloat? : List Char → Option ℚ) (sensors : ℕ → Option FluxSensor)
      (R : ℕ) (hdr : List String) (act : List Bool) (s : List Char)
      (vals : List Val),
      fluxBuild sensors R = .ok (hdr, act) →
      fluxdaq_read toFloat? act s = some vals →
      vals.length = hdr.length) ∧
    (∀ (toFloat? : List Char → Option ℚ) (addr : String)
      (sensors : List (ℕ × TchatSensor)) (hdr : List String)
      (s2r : List (ℕ × String × ℚ)) (outputs : ℕ → List Char) (vals : List ℚ),
      tchatBuild addr sensors = .ok (hdr, s2r) →
      tchat_read toFloat? s2r (sensorIds sensors) outputs = .ok vals →
      vals.length = hdr.length) := by
  refine ⟨?_, ?_, ?_⟩
  · intro f rk wk w nd g t hdr slots s vals hinit hread
    obtain ⟨hb, hm⟩ := tcm_validate_ok_inv (tcm_init_ok_inv hinit)
    have hslots : slots.length = hdr.length := mapE_length _ _ _ hm
    simp only [tcm_read_data] at hread
    split at hread
    · simp at hread
    · rename_i hlen
      rw [not_ne_iff] at hlen
      cases hmap : mapE (fun p => tcm_parse_line f p.2 p.1)
          (((splitChar '\r' s).dropLast).zip (slots.map Prod.snd)) with
      | error e => rw [hmap, except_bind_err] at hread; cases hread
      | ok out =>
        rw [hmap, except_bind_ok] at hread
        have hov : out = vals := by
          have := Except.ok.inj hread
          exact Option.some.inj this
        subst hov
        rw [mapE_length _ _ _ hmap, List.length_zip, hlen, List.length_map, hslots]
        exact Nat.min_self _
  · intro f sensors R hdr act s vals hbuild hread
    rw [fluxdaq_read_length f act s vals hread]
    exact (fluxBuild_count sensors R hdr act hbuild).symm
  · intro f addr sensors hdr s2r outputs vals hbuild hread
    rw [tchat_read_length f s2r _ outputs vals hread, sensorIds, sortLe_length,
      List.length_map, (tchatBuild_length addr sensors hdr s2r hbuild).1]

/-- Witness for C8, one concrete accepted read per device model. -/
theorem read_arity_matches_header_witness :
    (tcm_init ["TC@3".data] [] false none 0 1
        = .ok (["TC@3".data], [("TC".data, 3)]) ∧
      tcm_read_data toFloat0 (([("TC".data, (3 : ℤ))]).map Prod.snd) "TC=12@3\r".data
        = .ok (some [12]) ∧
      ([(12 : ℚ)]).length = ([("TC@3".data)] : List (List Char)).length) ∧
    (fluxBuild (fun id => if id = 1 then some ⟨true, some 1⟩ else none) 1
        = .ok (["q1", "T1"], [true, true]) ∧
      fluxdaq_read toFloat0 [true, true] "1,2".data = some [some 1, some 2] ∧
      ([some (1 : ℚ), some 2] : List Val).length
        = (["q1", "T1"] : List String).length) ∧
    (tchatBuild "0" [(1, ⟨false, none, "K"⟩)]
        = .ok (["T1@TCHAT0"], [(1, ("read", 1))]) ∧
      tchat_read toFloat0 [(1, ("read", (1 : ℚ)))]
        (sensorIds [(1, ⟨false, none, "K"⟩)]) (fun _ => "7".data) = .ok [7] ∧
      ([(7 : ℚ)]).length = (["T1@TCHAT0"] : List String).length) := by
  have htcm : tcm_init ["TC@3".data] [] false none 0 1
      = .ok (["TC@3".data], [("TC".data, 3)]) := by
    have hv : tcm_validate ["TC@3".data] [] false none
        = .ok (["TC@3".data], [("TC".data, 3)]) := by rfl
    norm_num [tcm_init, hv]
  have htcmr : tcm_read_data toFloat0 (([("TC".data, (3 : ℤ))]).map Prod.snd)
      "TC=12@3\r".data = .ok (some [12]) := by rfl
  have hfb : fluxBuild (fun id => if id = 1 then some ⟨true, some 1⟩ else none) 1
      = .ok (["q1", "T1"], [true, true]) := by rfl
  have hfr : fluxdaq_read toFloat0 [true, true] "1,2".data
      = some [some 1, some 2] := by rfl
  have htb : tchatBuild "0" [(1, ⟨false, none, "K"⟩)]
      = .ok (["T1@TCHAT0"], [(1, ("read", 1))]) := by rfl
  have htr : tchat_read toFloat0 [(1, ("read", (1 : ℚ)))]
      (sensorIds [(1, ⟨false, none, "K"⟩)]) (fun _ => "7".data) = .ok [7] := by
    have hp : charsToInt? "7".data = some 7 := rfl
    norm_num [tchat_read, mapE, sensorIds, sortLe, insertLe, List.lookup, toFloat0, hp,
      except_bind_ok]
  exact ⟨⟨htcm, htcmr,
      read_arity_matches_header.1 toFloat0 ["TC@3".data] [] false none 0 1
        ["TC@3".data] [("TC".data, 3)] "TC=12@3\r".data [12] htcm htcmr⟩,
    ⟨hfb, hfr,
      read_arity_matches_header.2.1 toFloat0
        (fun id => if id = 1 then some ⟨true, some 1⟩ else none) 1
        ["q1", "T1"] [true, true] "1,2".data [some 1, some 2] hfb hfr⟩,
    ⟨htb, htr,
      read_arity_matches_header.2.2 toFloat0 "0" [(1, ⟨false, none, "K"⟩)]
        ["T1@TCHAT0"] [(1, ("read", 1))] (fun _ => "7".data) [7] htb htr⟩⟩

end ThermalDAQ
